import Mathlib

/-!
Verification of the custom-data subsystem of fastkml (src/fastkml/data.py):
SimpleField, Schema, Data, SchemaData and ExtendedData, together with their
encoding to and decoding from a document tree.

The Python code is embedded shallowly:
  * Python values that can be a string, an integer or None are `PyVal`;
  * tree nodes (ElementTree elements) are `Element`: a tag, an ordered
    attribute list (a set attribute can hold None, as the code stores
    self.schema_url which may be None), an ordered child list and a text
    payload;
  * raised exceptions are `Except Err`; methods that mutate their receiver
    and can raise return `Except Err Unit × State`, the final state also on
    the error path, exactly as the mutations before the raise have happened;
  * methods that cannot raise return the new state directly.
The base classes (fastkml.base) and the DataType enumeration (fastkml.enums)
are not part of the sources; they are modelled from the specification's
collaborator contracts and marked as such below.
-/

namespace Fastkml

/-- A Python value as it flows through this module: a string, an int or None. -/
inductive PyVal where
  | none
  | str (s : String)
  | int (n : Int)
deriving DecidableEq

/-- Python truthiness for the values of PyVal. -/
def PyVal.truthy : PyVal → Bool
  | PyVal.none => false
  | PyVal.str s => if s = "" then false else true
  | PyVal.int n => if n = 0 then false else true

/-- An Optional string (for instance the result of Element.get) seen as a PyVal. -/
def optStrToPy : Option String → PyVal
  | Option.some s => PyVal.str s
  | Option.none => PyVal.none

/-- Whether a PyVal is a non-empty string: isinstance(v, str) and v. -/
def isNonemptyStr : PyVal → Bool
  | PyVal.str s => if s = "" then false else true
  | _ => false

/-- Python `a or b` for an optional string a and a string default b. -/
def strOr (v : Option String) (dflt : String) : String :=
  match v with
  | Option.some s => if s = "" then dflt else s
  | Option.none => dflt

/-- The exceptions the module raises: TypeError, ValueError and KMLSchemaError. -/
inductive Err where
  | typeError (msg : String)
  | valueError (msg : String)
  | kmlSchemaError (msg : String)
deriving DecidableEq

/-- A document tree node: tag, ordered attributes (a stored value can be None),
ordered children and text. -/
inductive Element where
  | mk (tag : String) (attrib : List (String × Option String))
      (children : List Element) (text : PyVal)

def Element.tag : Element → String
  | Element.mk t _ _ _ => t

def Element.attrib : Element → List (String × Option String)
  | Element.mk _ a _ _ => a

def Element.children : Element → List Element
  | Element.mk _ _ c _ => c

def Element.text : Element → PyVal
  | Element.mk _ _ _ x => x

/-- A fresh node with the given tag (config.etree.Element / SubElement). -/
def Element.new (t : String) : Element :=
  Element.mk t [] [] PyVal.none

/-- Store an attribute, replacing an existing binding of the same key. -/
def setAttrList : List (String × Option String) → String → Option String →
    List (String × Option String)
  | [], k, v => [(k, v)]
  | (k', v') :: rest, k, v =>
      if k' = k then (k, v) :: rest else (k', v') :: setAttrList rest k v

/-- element.set(key, value); the stored value may be None, as ElementTree
stores whatever object it is given. -/
def Element.set (e : Element) (k : String) (v : Option String) : Element :=
  Element.mk e.tag (setAttrList e.attrib k v) e.children e.text

/-- element.get(key): the stored value, or None when the key is absent. -/
def Element.get (e : Element) (k : String) : Option String :=
  match e.attrib.lookup k with
  | Option.some v => v
  | Option.none => Option.none

/-- Whether the attribute key is present at all (set to None still counts). -/
def Element.hasAttr (e : Element) (k : String) : Bool :=
  (e.attrib.lookup k).isSome

def Element.setText (e : Element) (v : PyVal) : Element :=
  Element.mk e.tag e.attrib e.children v

def Element.appendChild (e c : Element) : Element :=
  Element.mk e.tag e.attrib (e.children ++ [c]) e.text

/-- element.findall(tag): the immediate children with this tag, in document order. -/
def Element.findall (e : Element) (t : String) : List Element :=
  e.children.filter (fun c => c.tag == t)

/-- element.find(tag): the first immediate child with this tag, if any. -/
def Element.find (e : Element) (t : String) : Option Element :=
  (e.findall t).head?

/-- Modelled from the spec: the closed field-type vocabulary of the enums
module (fastkml.enums.DataType, not among the staged sources): string, int,
uint, short, ushort, float, double, bool. -/
inductive DataType where
  | string
  | int
  | uint
  | short
  | ushort
  | float
  | double
  | bool
deriving DecidableEq

/-- The enumeration member with this value, if the string is one of the
closed vocabulary. -/
def DataType.fromString : String → Option DataType
  | "string" => Option.some DataType.string
  | "int" => Option.some DataType.int
  | "uint" => Option.some DataType.uint
  | "short" => Option.some DataType.short
  | "ushort" => Option.some DataType.ushort
  | "float" => Option.some DataType.float
  | "double" => Option.some DataType.double
  | "bool" => Option.some DataType.bool
  | _ => Option.none

/-- Modelled from the spec: DataType(value) coerces an attribute string into
the field-type enumeration; an absent attribute (None) or an unrecognized
string raises ValueError, which propagates to the caller. -/
def DataType.ofValue (v : Option String) : Except Err DataType :=
  match v with
  | Option.some s =>
    match DataType.fromString s with
    | Option.some t => Except.ok t
    | Option.none => Except.error (Err.valueError "is not a valid DataType")
  | Option.none => Except.error (Err.valueError "is not a valid DataType")

/-- SimpleField: the declaration of one custom field (a frozen dataclass).
Decoding can supply None for the name and any text for the display name. -/
structure SimpleField where
  name : Option String
  type : DataType
  display_name : PyVal
deriving DecidableEq

/-- Schema: ns, id, target_id, name and the ordered field list. -/
structure Schema where
  ns : String
  id : Option String
  target_id : Option String
  name : Option String
  simple_fields : List SimpleField
deriving DecidableEq

/-- list(fields) if fields else [] of Schema.__init__. -/
def fieldsOrEmpty : Option (List SimpleField) → List SimpleField
  | Option.some l => l
  | Option.none => []

/-- Schema.__init__: raises KMLSchemaError when no id is given, otherwise
stores the optional name and the (possibly empty) field list. -/
def Schema.init (ns : String) (id : Option String) (target_id : Option String)
    (name : Option String) (fields : Option (List SimpleField)) : Except Err Schema :=
  match id with
  | Option.none => Except.error (Err.kmlSchemaError "Id is required for schema")
  | Option.some i =>
      Except.ok (Schema.mk ns (Option.some i) target_id name (fieldsOrEmpty fields))

/-- Modelled from the spec: the base-object decode contract reads the generic
id and targetId attributes of the node into the object (fastkml.base, not
among the staged sources). -/
def baseFromElement (s : Schema) (element : Element) : Schema :=
  { s with id := element.get "id", target_id := element.get "targetId" }

/-- The loop of Schema.from_element over the SimpleField children: each child's
name and type attributes and optional displayName text become a SimpleField
appended in document order; a failing type coercion aborts the loop. -/
def Schema.processFields (s : Schema) : List Element → Except Err Schema
  | [] => Except.ok s
  | sf :: rest =>
    let sfname := sf.get "name"
    let sfdisplay :=
      match sf.find (s.ns ++ "displayName") with
      | Option.some d => d.text
      | Option.none => PyVal.none
    match DataType.ofValue (sf.get "type") with
    | Except.error e => Except.error e
    | Except.ok t =>
        Schema.processFields
          { s with simple_fields := s.simple_fields ++ [SimpleField.mk sfname t sfdisplay] }
          rest

/-- Schema.from_element: base decode, then the name attribute, then every
SimpleField child in document order. -/
def Schema.from_element (s : Schema) (element : Element) : Except Err Schema :=
  let s1 := baseFromElement s element
  let s2 : Schema := { s1 with name := element.get "name" }
  Schema.processFields s2 (element.findall (s2.ns ++ "SimpleField"))

/-- Data: an untyped name/value pair with optional display name. -/
structure Data where
  ns : String
  name : Option String
  value : PyVal
  display_name : PyVal
deriving DecidableEq

/-- Data.__init__. -/
def Data.init (ns : String) (name : Option String) (value : PyVal)
    (display_name : PyVal) : Data :=
  Data.mk ns name value display_name

/-- Data.etree_element: the name attribute is always set (self.name or ""),
a value child carries the stored value as text, and a displayName child is
appended only when display_name is truthy. -/
def Data.etree_element (d : Data) : Element :=
  let element := (Element.new (d.ns ++ "Data")).set "name" (Option.some (strOr d.name ""))
  let element := element.appendChild ((Element.new (d.ns ++ "value")).setText d.value)
  if (d.display_name).truthy then
    element.appendChild ((Element.new (d.ns ++ "displayName")).setText d.display_name)
  else
    element

/-- Data.from_element: read the name attribute, then the value child's text if
that child exists, then the displayName child's text if that child exists. -/
def Data.from_element (d : Data) (element : Element) : Data :=
  let d1 : Data := { d with name := element.get "name" }
  let d2 : Data :=
    match element.find (d1.ns ++ "value") with
    | Option.some tv => { d1 with value := tv.text }
    | Option.none => d1
  match element.find (d2.ns ++ "displayName") with
  | Option.some dn => { d2 with display_name := dn.text }
  | Option.none => d2

/-- One canonical stored record of SchemaData: the dict with keys name and value. -/
structure Entry where
  name : String
  value : PyVal
deriving DecidableEq

/-- One element of the sequence handed to the SchemaData data setter: a
tuple/list (treated positionally), a mapping (treated as keyword arguments),
or anything else (silently skipped by the loop). -/
inductive SDElem where
  | seq (items : List PyVal)
  | dict (entries : List (String × PyVal))
  | prim (v : PyVal)

/-- The top-level argument of the SchemaData data setter: a tuple/list, a
mapping, None, or any other value. -/
inductive SDInput where
  | list (elems : List SDElem)
  | dict (entries : List (String × PyVal))
  | pynone
  | prim (v : PyVal)

/-- SchemaData: schema_url (None only reachable through decode) and the
internal mutable record list. -/
structure SchemaData where
  ns : String
  schema_url : Option String
  _data : List Entry
deriving DecidableEq

/-- The data property getter: an immutable snapshot of the internal list. -/
def SchemaData.data (st : SchemaData) : List Entry :=
  st._data

/-- SchemaData.append_data: requires name to be a non-empty string, appending
the record at the end; on the raise the state is unchanged. -/
def SchemaData.append_data (st : SchemaData) (name : PyVal) (value : PyVal) :
    Except Err Unit × SchemaData :=
  match name with
  | PyVal.str s =>
      if s = "" then
        (Except.error (Err.typeError "name must be a nonempty string"), st)
      else
        (Except.ok (), { st with _data := st._data ++ [Entry.mk s value] })
  | _ => (Except.error (Err.typeError "name must be a nonempty string"), st)

/-- self.append_data(*d) for a tuple/list element d: exactly two items bind
(name, value); any other arity is a TypeError of the call itself. -/
def starCall (st : SchemaData) (items : List PyVal) : Except Err Unit × SchemaData :=
  match items with
  | [n, v] => SchemaData.append_data st n v
  | _ => (Except.error (Err.typeError "argument count mismatch"), st)

/-- self.append_data(**d) for a mapping element d: the keys must be exactly
name and value; anything else is a TypeError of the call itself. -/
def kwargsCall (st : SchemaData) (entries : List (String × PyVal)) :
    Except Err Unit × SchemaData :=
  if entries.all (fun kv => kv.1 == "name" || kv.1 == "value") then
    match entries.lookup "name", entries.lookup "value" with
    | Option.some n, Option.some v => SchemaData.append_data st n v
    | _, _ => (Except.error (Err.typeError "missing required argument"), st)
  else
    (Except.error (Err.typeError "unexpected keyword argument"), st)

/-- One iteration of the data setter loop: a tuple/list element is a
positional append, a mapping element a keyword append, anything else is
silently skipped. -/
def elemStep (st : SchemaData) : SDElem → Except Err Unit × SchemaData
  | SDElem.seq items => starCall st items
  | SDElem.dict entries => kwargsCall st entries
  | SDElem.prim _ => (Except.ok (), st)

/-- The loop of the data setter over a tuple/list argument. -/
def setElems (st : SchemaData) : List SDElem → Except Err Unit × SchemaData
  | [] => (Except.ok (), st)
  | e :: rest =>
    match elemStep st e with
    | (Except.ok _, st') => setElems st' rest
    | (Except.error err, st') => (Except.error err, st')

/-- The data property setter: a tuple/list is normalized element by element
after resetting the store, None resets the store, anything else raises
TypeError leaving the store unchanged. -/
def SchemaData.setData (st : SchemaData) : SDInput → Except Err Unit × SchemaData
  | SDInput.list elems => setElems { st with _data := [] } elems
  | SDInput.pynone => (Except.ok (), { st with _data := [] })
  | SDInput.dict _ => (Except.error (Err.typeError "data must be of type tuple or list"), st)
  | SDInput.prim _ => (Except.error (Err.typeError "data must be of type tuple or list"), st)

/-- SchemaData.__init__: schema_url must be a non-empty string (ValueError
otherwise), then the data argument goes through the data setter. -/
def SchemaData.init (ns : String) (schema_url : PyVal) (data : SDInput) :
    Except Err SchemaData :=
  match schema_url with
  | PyVal.str s =>
      if s = "" then
        Except.error (Err.valueError "required parameter schema_url missing")
      else
        match SchemaData.setData (SchemaData.mk ns (Option.some s) []) data with
        | (Except.ok _, st) => Except.ok st
        | (Except.error e, _) => Except.error e
  | _ => Except.error (Err.valueError "required parameter schema_url missing")

/-- SchemaData.etree_element: the schemaUrl attribute is set to the stored
value (None included) and every record becomes a SimpleData child with a
name attribute and the value as text, in order. -/
def SchemaData.etree_element (st : SchemaData) : Element :=
  let element := (Element.new (st.ns ++ "SchemaData")).set "schemaUrl" st.schema_url
  Element.mk element.tag element.attrib
    (element.children ++ (SchemaData.data st).map (fun d =>
      ((Element.new (st.ns ++ "SimpleData")).set "name" (Option.some d.name)).setText d.value))
    element.text

/-- The loop of SchemaData.from_element over the SimpleData children: each
child's name attribute and text go through append_data; a raise aborts the
loop with the state reached so far. -/
def sdAppendAll (st : SchemaData) : List Element → Except Err Unit × SchemaData
  | [] => (Except.ok (), st)
  | c :: rest =>
    match SchemaData.append_data st (optStrToPy (c.get "name")) c.text with
    | (Except.ok _, st1) => sdAppendAll st1 rest
    | (Except.error e, st1) => (Except.error e, st1)

/-- SchemaData.from_element: reset the store through the setter, overwrite
schema_url with the schemaUrl attribute (None when absent, no check), then
append every SimpleData child in document order. -/
def SchemaData.from_element (st : SchemaData) (element : Element) :
    Except Err Unit × SchemaData :=
  let st1 := (SchemaData.setData st (SDInput.list [])).2
  let st2 : SchemaData := { st1 with schema_url := element.get "schemaUrl" }
  sdAppendAll st2 (element.findall (st2.ns ++ "SimpleData"))

/-- One element of an ExtendedData container: a Data or a SchemaData. -/
inductive XElem where
  | data (d : Data)
  | schema_data (sd : SchemaData)
deriving DecidableEq

/-- ExtendedData: an ordered heterogeneous element list. -/
structure ExtendedData where
  ns : String
  elements : List XElem
deriving DecidableEq

/-- Decoding one Data child inside ExtendedData.from_element: a fresh
Data(self.ns) then from_element; this can never raise. -/
def decodeDataChild (ns : String) (child : Element) : Data :=
  Data.from_element (Data.init ns Option.none PyVal.none PyVal.none) child

/-- Decoding one SchemaData child inside ExtendedData.from_element: a fresh
SchemaData(self.ns, "dummy") then from_element; the raise propagates. -/
def decodeSchemaChild (ns : String) (child : Element) : Except Err SchemaData :=
  match SchemaData.init ns (PyVal.str "dummy") SDInput.pynone with
  | Except.error e => Except.error e
  | Except.ok st =>
    match SchemaData.from_element st child with
    | (Except.ok _, st') => Except.ok st'
    | (Except.error e, _) => Except.error e

/-- All SchemaData children decoded in order, stopping at the first raise. -/
def mapDecodeSchema (ns : String) : List Element → Except Err (List SchemaData)
  | [] => Except.ok []
  | c :: rest =>
    match decodeSchemaChild ns c with
    | Except.error e => Except.error e
    | Except.ok st =>
      match mapDecodeSchema ns rest with
      | Except.error e => Except.error e
      | Except.ok sts => Except.ok (st :: sts)

/-- The first pass of ExtendedData.from_element: every Data child decoded and
appended in document order. -/
def edAppendData (ed : ExtendedData) : List Element → ExtendedData
  | [] => ed
  | c :: rest =>
      edAppendData
        { ed with elements := ed.elements ++ [XElem.data (decodeDataChild ed.ns c)] }
        rest

/-- The second pass of ExtendedData.from_element: every SchemaData child
decoded and appended in document order; a raise aborts the pass. -/
def edAppendSchema (ed : ExtendedData) : List Element → Except Err Unit × ExtendedData
  | [] => (Except.ok (), ed)
  | c :: rest =>
    match decodeSchemaChild ed.ns c with
    | Except.error e => (Except.error e, ed)
    | Except.ok st' =>
        edAppendSchema
          { ed with elements := ed.elements ++ [XElem.schema_data st'] }
          rest

/-- ExtendedData.from_element: reset elements, then all Data children, then
all SchemaData children (two passes by tag, each in document order). -/
def ExtendedData.from_element (ed : ExtendedData) (element : Element) :
    Except Err Unit × ExtendedData :=
  let ed1 : ExtendedData := { ed with elements := [] }
  let ed2 := edAppendData ed1 (element.findall (ed.ns ++ "Data"))
  edAppendSchema ed2 (element.findall (ed.ns ++ "SchemaData"))

/-! ## Helper lemmas -/

/-- A successful append_data call means the name was a non-empty string and the
record went to the end of the store. -/
theorem append_data_ok {st st1 : SchemaData} {n v : PyVal} {a : Unit}
    (h : SchemaData.append_data st n v = (Except.ok a, st1)) :
    ∃ s, n = PyVal.str s ∧ s ≠ ""
      ∧ st1 = { st with _data := st._data ++ [Entry.mk s v] } := by
  cases n with
  | str s =>
    by_cases hs : s = ""
    · subst hs; simp [SchemaData.append_data] at h
    · refine ⟨s, rfl, hs, ?_⟩
      simp [SchemaData.append_data, hs] at h
      exact h.symm
  | none => simp [SchemaData.append_data] at h
  | int k => simp [SchemaData.append_data] at h

/-- optStrToPy yields a string value only from a present attribute. -/
theorem optStrToPy_eq_str {o : Option String} {s : String}
    (h : optStrToPy o = PyVal.str s) : o = Option.some s := by
  cases o with
  | some t => simpa [optStrToPy] using h
  | none => simp [optStrToPy] at h

/-- A successful SimpleData decode loop leaves ns and schema_url alone and
appends one record per child, whose name is the child's name attribute and
whose value is the child's text, in document order. -/
theorem sdAppendAll_ok (l : List Element) : ∀ (st st' : SchemaData) (u : Unit),
    sdAppendAll st l = (Except.ok u, st') →
    st'.ns = st.ns ∧ st'.schema_url = st.schema_url ∧
    ∃ es : List Entry, st'._data = st._data ++ es ∧
      es.map (fun en => (Option.some en.name, en.value))
        = l.map (fun c => (c.get "name", c.text)) := by
  induction l with
  | nil =>
    intro st st' u h
    simp only [sdAppendAll] at h
    injection h with h1 h2
    subst h2
    exact ⟨rfl, rfl, [], by simp, by simp⟩
  | cons c rest ih =>
    intro st st' u h
    simp only [sdAppendAll] at h
    cases hstep : SchemaData.append_data st (optStrToPy (c.get "name")) c.text with
    | mk r st1 =>
      rw [hstep] at h
      cases r with
      | error e => simp at h
      | ok a =>
        obtain ⟨s, hn, hs, hst1⟩ := append_data_ok hstep
        have hget := optStrToPy_eq_str hn
        obtain ⟨hns, hurl, es', hdata, hmap⟩ := ih st1 st' u h
        subst hst1
        refine ⟨hns, hurl, Entry.mk s c.text :: es', ?_, ?_⟩
        · simpa using hdata
        · simp only [List.map_cons, hmap, hget]

/-- When every SimpleData child carries a non-empty name attribute, the decode
loop raises nothing. -/
theorem sdAppendAll_total (l : List Element) : ∀ st : SchemaData,
    (l.all (fun c => isNonemptyStr (optStrToPy (c.get "name"))) = true) →
    ∃ st', sdAppendAll st l = (Except.ok (), st') := by
  induction l with
  | nil => intro st _; exact ⟨st, rfl⟩
  | cons c rest ih =>
    intro st h
    simp only [List.all_cons, Bool.and_eq_true] at h
    obtain ⟨h1, h2⟩ := h
    cases hn : c.get "name" with
    | none => rw [hn] at h1; simp [optStrToPy, isNonemptyStr] at h1
    | some s =>
      rw [hn] at h1
      by_cases hs : s = ""
      · subst hs; simp [optStrToPy, isNonemptyStr] at h1
      · obtain ⟨st'', hrest⟩ := ih { st with _data := st._data ++ [Entry.mk s c.text] } h2
        refine ⟨st'', ?_⟩
        simp only [sdAppendAll, hn, optStrToPy, SchemaData.append_data, if_neg hs]
        exact hrest

/-- Every failure of the type coercion is the ValueError of the enumeration. -/
theorem ofValue_error_eq {v : Option String} {e : Err}
    (h : DataType.ofValue v = Except.error e) :
    e = Err.valueError "is not a valid DataType" := by
  cases v with
  | none =>
    simp [DataType.ofValue] at h
    exact h.symm
  | some s =>
    simp only [DataType.ofValue] at h
    cases hf : DataType.fromString s with
    | some t => rw [hf] at h; simp at h
    | none => rw [hf] at h; simp at h; exact h.symm

/-- The SimpleField decode loop fails with the enumeration's ValueError as soon
as some child of the list has no type attribute. -/
theorem processFields_err (l : List Element) : ∀ s : Schema,
    (l.any (fun c => (c.get "type").isNone)) = true →
    Schema.processFields s l = Except.error (Err.valueError "is not a valid DataType") := by
  induction l with
  | nil => intro s h; simp at h
  | cons c rest ih =>
    intro s h
    simp only [List.any_cons, Bool.or_eq_true] at h
    cases hv : DataType.ofValue (c.get "type") with
    | error e =>
      have he := ofValue_error_eq hv
      subst he
      simp only [Schema.processFields, hv]
    | ok t =>
      have hrest : rest.any (fun c => (c.get "type").isNone) = true := by
        rcases h with h1 | h2
        · exfalso
          have hg : c.get "type" = Option.none := by
            cases hg : c.get "type" with
            | none => rfl
            | some s' => rw [hg] at h1; simp at h1
          rw [hg] at hv
          simp [DataType.ofValue] at hv
        · exact h2
      simp only [Schema.processFields, hv]
      exact ih _ hrest

/-- append_data never touches ns or schema_url. -/
theorem append_data_pres (st : SchemaData) (n v : PyVal) :
    (SchemaData.append_data st n v).2.ns = st.ns
  ∧ (SchemaData.append_data st n v).2.schema_url = st.schema_url := by
  cases n with
  | str s =>
    by_cases hs : s = "" <;> simp [SchemaData.append_data, hs]
  | none => exact ⟨rfl, rfl⟩
  | int k => exact ⟨rfl, rfl⟩

/-- A positional append call never touches ns or schema_url. -/
theorem starCall_pres (st : SchemaData) (items : List PyVal) :
    (starCall st items).2.ns = st.ns ∧ (starCall st items).2.schema_url = st.schema_url := by
  match items with
  | [n, v] => exact append_data_pres st n v
  | [] => exact ⟨rfl, rfl⟩
  | [a] => exact ⟨rfl, rfl⟩
  | a :: b :: c :: t => exact ⟨rfl, rfl⟩

/-- A keyword append call never touches ns or schema_url. -/
theorem kwargsCall_pres (st : SchemaData) (entries : List (String × PyVal)) :
    (kwargsCall st entries).2.ns = st.ns
  ∧ (kwargsCall st entries).2.schema_url = st.schema_url := by
  unfold kwargsCall
  by_cases hall : entries.all (fun kv => kv.1 == "name" || kv.1 == "value") = true
  · rw [if_pos hall]
    cases hn : entries.lookup "name" with
    | none => cases hv : entries.lookup "value" <;> exact ⟨rfl, rfl⟩
    | some n =>
      cases hv : entries.lookup "value" with
      | none => exact ⟨rfl, rfl⟩
      | some v => exact append_data_pres st n v
  · rw [if_neg hall]
    exact ⟨rfl, rfl⟩

/-- One setter-loop iteration never touches ns or schema_url. -/
theorem elemStep_pres (st : SchemaData) (e : SDElem) :
    (elemStep st e).2.ns = st.ns ∧ (elemStep st e).2.schema_url = st.schema_url := by
  cases e with
  | seq items => exact starCall_pres st items
  | dict entries => exact kwargsCall_pres st entries
  | prim v => exact ⟨rfl, rfl⟩

/-- The setter loop never touches ns or schema_url. -/
theorem setElems_pres (l : List SDElem) : ∀ st : SchemaData,
    (setElems st l).2.ns = st.ns ∧ (setElems st l).2.schema_url = st.schema_url := by
  induction l with
  | nil => intro st; exact ⟨rfl, rfl⟩
  | cons e rest ih =>
    intro st
    simp only [setElems]
    cases hstep : elemStep st e with
    | mk r st1 =>
      have hp := elemStep_pres st e
      rw [hstep] at hp
      cases r with
      | ok a =>
        simp only
        exact ⟨(ih st1).1.trans hp.1, (ih st1).2.trans hp.2⟩
      | error err => exact hp

/-- The data setter never touches ns or schema_url. -/
theorem setData_pres (st : SchemaData) (d : SDInput) :
    (SchemaData.setData st d).2.ns = st.ns
  ∧ (SchemaData.setData st d).2.schema_url = st.schema_url := by
  cases d with
  | list elems => exact setElems_pres elems { st with _data := [] }
  | dict entries => exact ⟨rfl, rfl⟩
  | pynone => exact ⟨rfl, rfl⟩
  | prim v => exact ⟨rfl, rfl⟩

/-- Every SchemaData the constructor produces has a present schema_url. -/
theorem init_url_nonempty (ns : String) (url : PyVal) (d : SDInput) (rec : SchemaData)
    (h : SchemaData.init ns url d = Except.ok rec) : rec.schema_url ≠ Option.none := by
  cases url with
  | str s =>
    by_cases hs : s = ""
    · subst hs; simp [SchemaData.init] at h
    · simp only [SchemaData.init, if_neg hs] at h
      cases hset : SchemaData.setData (SchemaData.mk ns (Option.some s) []) d with
      | mk r st1 =>
        rw [hset] at h
        cases r with
        | error e => simp at h
        | ok a =>
          simp only at h
          injection h with h1
          subst h1
          have hp := setData_pres (SchemaData.mk ns (Option.some s) []) d
          rw [hset] at hp
          rw [hp.2]
          simp
  | none => simp [SchemaData.init] at h
  | int k => simp [SchemaData.init] at h

/-- An absent attribute reads as None. -/
theorem hasAttr_false_get (e : Element) (k : String) (h : e.hasAttr k = false) :
    e.get k = Option.none := by
  unfold Element.hasAttr at h
  unfold Element.get
  cases hl : e.attrib.lookup k with
  | some v => rw [hl] at h; simp at h
  | none => rfl

/-- The first ExtendedData decode pass appends exactly the decoded Data
children, in document order. -/
theorem edAppendData_eq (l : List Element) : ∀ ed : ExtendedData,
    edAppendData ed l
      = { ed with elements := ed.elements
            ++ l.map (fun c => XElem.data (decodeDataChild ed.ns c)) } := by
  induction l with
  | nil => intro ed; simp [edAppendData]
  | cons c rest ih =>
    intro ed
    obtain ⟨ns, elems⟩ := ed
    simp only [edAppendData]
    rw [ih]
    simp

/-- A successful second ExtendedData decode pass appends exactly the decoded
SchemaData children, in document order. -/
theorem edAppendSchema_ok (l : List Element) : ∀ (ed ed' : ExtendedData) (u : Unit),
    edAppendSchema ed l = (Except.ok u, ed') →
    ∃ sds : List SchemaData, mapDecodeSchema ed.ns l = Except.ok sds
      ∧ ed' = { ed with elements := ed.elements ++ sds.map XElem.schema_data } := by
  induction l with
  | nil =>
    intro ed ed' u h
    simp only [edAppendSchema] at h
    injection h with h1 h2
    subst h2
    exact ⟨[], rfl, by simp⟩
  | cons c rest ih =>
    intro ed ed' u h
    obtain ⟨ns, elems⟩ := ed
    simp only [edAppendSchema] at h
    cases hd : decodeSchemaChild ns c with
    | error e => rw [hd] at h; simp at h
    | ok st1 =>
      rw [hd] at h
      simp only at h
      obtain ⟨sds', hm, hed⟩ := ih _ _ _ h
      refine ⟨st1 :: sds', ?_, ?_⟩
      · have hm2 : mapDecodeSchema ns rest = Except.ok sds' := hm
        simp only [mapDecodeSchema, hd]
        rw [hm2]
      · rw [hed]
        simp

/-! ## The claims -/

/-- Claim C1: a successful ExtendedData decode leaves in elements first every
Data child, decoded, in document order, then every SchemaData child, decoded,
in document order; whatever elements were stored before are discarded (the
result does not depend on them), so the original interleaving of Data and
SchemaData siblings is not preserved. -/
theorem extendedData_decode_two_pass (ed : ExtendedData) (node : Element) (u : Unit)
    (ed' : ExtendedData) (h : ExtendedData.from_element ed node = (Except.ok u, ed')) :
    ∃ sds : List SchemaData,
      mapDecodeSchema ed.ns (node.findall (ed.ns ++ "SchemaData")) = Except.ok sds
    ∧ ed'.elements
        = (node.findall (ed.ns ++ "Data")).map (fun c => XElem.data (decodeDataChild ed.ns c))
          ++ sds.map XElem.schema_data := by
  have h2 : edAppendSchema (edAppendData { ed with elements := [] }
      (node.findall (ed.ns ++ "Data"))) (node.findall (ed.ns ++ "SchemaData"))
      = (Except.ok u, ed') := h
  rw [edAppendData_eq] at h2
  obtain ⟨sds, hm, hed⟩ := edAppendSchema_ok _ _ _ _ h2
  have hm2 : mapDecodeSchema ed.ns (node.findall (ed.ns ++ "SchemaData")) = Except.ok sds := hm
  refine ⟨sds, hm2, ?_⟩
  rw [hed]
  simp

/-- Claim C1, witness: decoding a node with one Data child and one SchemaData
child, from a container already holding an element, yields exactly the decoded
Data followed by the decoded SchemaData. -/
theorem extendedData_decode_two_pass_witness :
    ExtendedData.from_element
        (ExtendedData.mk "" [XElem.data (Data.mk "" Option.none PyVal.none PyVal.none)])
        (Element.mk "ExtendedData" []
          [Element.mk "Data" [("name", Option.some "a")]
            [Element.mk "value" [] [] (PyVal.str "1")] PyVal.none,
           Element.mk "SchemaData" [("schemaUrl", Option.some "#s")]
            [Element.mk "SimpleData" [("name", Option.some "x")] [] (PyVal.str "9")] PyVal.none]
          PyVal.none)
      = (Except.ok (), ExtendedData.mk ""
          [XElem.data (Data.mk "" (Option.some "a") (PyVal.str "1") PyVal.none),
           XElem.schema_data (SchemaData.mk "" (Option.some "#s") [Entry.mk "x" (PyVal.str "9")])])
  ∧ ∃ sds : List SchemaData,
      mapDecodeSchema ""
          ((Element.mk "ExtendedData" []
            [Element.mk "Data" [("name", Option.some "a")]
              [Element.mk "value" [] [] (PyVal.str "1")] PyVal.none,
             Element.mk "SchemaData" [("schemaUrl", Option.some "#s")]
              [Element.mk "SimpleData" [("name", Option.some "x")] [] (PyVal.str "9")] PyVal.none]
            PyVal.none).findall ("" ++ "SchemaData")) = Except.ok sds
    ∧ (ExtendedData.mk ""
          [XElem.data (Data.mk "" (Option.some "a") (PyVal.str "1") PyVal.none),
           XElem.schema_data (SchemaData.mk "" (Option.some "#s")
              [Entry.mk "x" (PyVal.str "9")])]).elements
        = ((Element.mk "ExtendedData" []
            [Element.mk "Data" [("name", Option.some "a")]
              [Element.mk "value" [] [] (PyVal.str "1")] PyVal.none,
             Element.mk "SchemaData" [("schemaUrl", Option.some "#s")]
              [Element.mk "SimpleData" [("name", Option.some "x")] [] (PyVal.str "9")] PyVal.none]
            PyVal.none).findall ("" ++ "Data")).map
            (fun c => XElem.data (decodeDataChild "" c))
          ++ sds.map XElem.schema_data :=
  ⟨rfl, extendedData_decode_two_pass
    (ExtendedData.mk "" [XElem.data (Data.mk "" Option.none PyVal.none PyVal.none)])
    (Element.mk "ExtendedData" []
      [Element.mk "Data" [("name", Option.some "a")]
        [Element.mk "value" [] [] (PyVal.str "1")] PyVal.none,
       Element.mk "SchemaData" [("schemaUrl", Option.some "#s")]
        [Element.mk "SimpleData" [("name", Option.some "x")] [] (PyVal.str "9")] PyVal.none]
      PyVal.none)
    () (ExtendedData.mk ""
      [XElem.data (Data.mk "" (Option.some "a") (PyVal.str "1") PyVal.none),
       XElem.schema_data (SchemaData.mk "" (Option.some "#s") [Entry.mk "x" (PyVal.str "9")])])
    rfl⟩

/-- Claim C2: setting the data of any SchemaData from the mixed-shape sequence
with a mapping element and a positional pair element succeeds and the data
accessor yields the ordered canonical records: name a with value 1, then name
b with value 2. -/
theorem schemaData_setter_mixed_shapes (st : SchemaData) :
    SchemaData.setData st (SDInput.list
      [SDElem.dict [("name", PyVal.str "a"), ("value", PyVal.int 1)],
       SDElem.seq [PyVal.str "b", PyVal.int 2]])
      = (Except.ok (), { st with _data := [Entry.mk "a" (PyVal.int 1), Entry.mk "b" (PyVal.int 2)] })
  ∧ SchemaData.data { st with _data := [Entry.mk "a" (PyVal.int 1), Entry.mk "b" (PyVal.int 2)] }
      = [Entry.mk "a" (PyVal.int 1), Entry.mk "b" (PyVal.int 2)] :=
  ⟨rfl, rfl⟩

/-- Claim C3, counterexample: constructing a Schema with the empty string as id
succeeds, so the id is not required to be non-empty. -/
theorem schema_init_empty_id_accepted :
    Schema.init "ns" (Option.some "") Option.none Option.none Option.none
      = Except.ok (Schema.mk "ns" (Option.some "") Option.none Option.none []) := rfl

/-- Claim C3, amended: Schema construction fails with KMLSchemaError exactly
when the id is absent (None); any supplied id string, the empty string
included, is accepted regardless of the other optional fields. -/
theorem schema_init_id_spec (ns : String) (id target_id name : Option String)
    (fields : Option (List SimpleField)) :
    (Schema.init ns id target_id name fields
        = Except.error (Err.kmlSchemaError "Id is required for schema") ↔ id = Option.none)
  ∧ (∀ s : String, Schema.init ns (Option.some s) target_id name fields
        = Except.ok (Schema.mk ns (Option.some s) target_id name (fieldsOrEmpty fields))) := by
  constructor
  · cases id with
    | none => simp [Schema.init]
    | some s => simp [Schema.init]
  · intro s; rfl

/-- Claim C4, counterexample: constructing a SchemaData with the empty string
as schema_url fails with a ValueError, not with a TypeError. -/
theorem schemaData_empty_url_not_typeerror :
    SchemaData.init "" (PyVal.str "") SDInput.pynone
      = Except.error (Err.valueError "required parameter schema_url missing")
  ∧ ¬ (∃ msg, SchemaData.init "" (PyVal.str "") SDInput.pynone
        = Except.error (Err.typeError msg)) := by
  refine ⟨rfl, ?_⟩
  rintro ⟨msg, h⟩
  rw [show SchemaData.init "" (PyVal.str "") SDInput.pynone
      = Except.error (Err.valueError "required parameter schema_url missing") from rfl] at h
  simp at h

/-- Claim C4, amended: SchemaData construction fails with a ValueError whenever
schema_url is not a non-empty string (in particular for the empty string); with
a non-empty schema_url and no data it succeeds and encodes to a SchemaData
node with the schemaUrl attribute set and no children. -/
theorem schemaData_init_valueerror_spec (ns : String) (url : PyVal) (d : SDInput)
    (h : isNonemptyStr url = false) :
    SchemaData.init ns url d = Except.error (Err.valueError "required parameter schema_url missing")
  ∧ SchemaData.init ns (PyVal.str "#s") SDInput.pynone
      = Except.ok (SchemaData.mk ns (Option.some "#s") [])
  ∧ SchemaData.etree_element (SchemaData.mk ns (Option.some "#s") [])
      = Element.mk (ns ++ "SchemaData") [("schemaUrl", Option.some "#s")] [] PyVal.none := by
  refine ⟨?_, rfl, rfl⟩
  cases url with
  | str s =>
    simp only [isNonemptyStr] at h
    have hs : s = "" := by
      by_cases he : s = ""
      · exact he
      · simp [he] at h
    subst hs
    rfl
  | none => rfl
  | int n => rfl

/-- Claim C4, witness: the empty string fails with the ValueError and the url
of the example succeeds and encodes as claimed. -/
theorem schemaData_init_valueerror_spec_witness :
    SchemaData.init "x" (PyVal.str "") SDInput.pynone
      = Except.error (Err.valueError "required parameter schema_url missing")
  ∧ SchemaData.init "x" (PyVal.str "#s") SDInput.pynone
      = Except.ok (SchemaData.mk "x" (Option.some "#s") [])
  ∧ SchemaData.etree_element (SchemaData.mk "x" (Option.some "#s") [])
      = Element.mk ("x" ++ "SchemaData") [("schemaUrl", Option.some "#s")] [] PyVal.none :=
  schemaData_init_valueerror_spec "x" (PyVal.str "") SDInput.pynone rfl

/-- Claim C5: append_data fails with a TypeError exactly when the name is not a
non-empty string, and then returns the state unchanged; with a non-empty
string name it appends the record as the last element, unconditionally, so
insertion order is preserved and duplicate names all survive, and the data
accessor shows the record last. -/
theorem append_data_spec (st : SchemaData) (bad v w : PyVal) (s : String)
    (hbad : isNonemptyStr bad = false) (hs : s ≠ "") :
    SchemaData.append_data st bad v
      = (Except.error (Err.typeError "name must be a nonempty string"), st)
  ∧ SchemaData.append_data st (PyVal.str s) w
      = (Except.ok (), { st with _data := st._data ++ [Entry.mk s w] })
  ∧ SchemaData.data { st with _data := st._data ++ [Entry.mk s w] }
      = SchemaData.data st ++ [Entry.mk s w] := by
  refine ⟨?_, ?_, rfl⟩
  · cases bad with
    | str t =>
      simp only [isNonemptyStr] at hbad
      have ht : t = "" := by
        by_cases he : t = ""
        · exact he
        · simp [he] at hbad
      subst ht
      rfl
    | none => rfl
    | int n => rfl
  · simp [SchemaData.append_data, hs]

/-- Claim C5, witness: on a store already holding a record named x, appending
with name None fails leaving the store unchanged, and appending another record
named x succeeds with the duplicate as the last element. -/
theorem append_data_spec_witness :
    SchemaData.append_data (SchemaData.mk "" (Option.some "#s") [Entry.mk "x" (PyVal.int 1)])
        PyVal.none (PyVal.int 2)
      = (Except.error (Err.typeError "name must be a nonempty string"),
         SchemaData.mk "" (Option.some "#s") [Entry.mk "x" (PyVal.int 1)])
  ∧ SchemaData.append_data (SchemaData.mk "" (Option.some "#s") [Entry.mk "x" (PyVal.int 1)])
        (PyVal.str "x") (PyVal.int 3)
      = (Except.ok (),
         { SchemaData.mk "" (Option.some "#s") [Entry.mk "x" (PyVal.int 1)] with
            _data := (SchemaData.mk "" (Option.some "#s") [Entry.mk "x" (PyVal.int 1)])._data
              ++ [Entry.mk "x" (PyVal.int 3)] })
  ∧ SchemaData.data { SchemaData.mk "" (Option.some "#s") [Entry.mk "x" (PyVal.int 1)] with
        _data := (SchemaData.mk "" (Option.some "#s") [Entry.mk "x" (PyVal.int 1)])._data
          ++ [Entry.mk "x" (PyVal.int 3)] }
      = SchemaData.data (SchemaData.mk "" (Option.some "#s") [Entry.mk "x" (PyVal.int 1)])
          ++ [Entry.mk "x" (PyVal.int 3)] :=
  append_data_spec (SchemaData.mk "" (Option.some "#s") [Entry.mk "x" (PyVal.int 1)])
    PyVal.none (PyVal.int 2) (PyVal.int 3) "x" rfl (by decide)

/-- Claim C6: whenever a SchemaData node decodes successfully, re-encoding the
result reproduces the schemaUrl attribute and the ordered list (hence the
multiset) of name-attribute/text pairs of the SimpleData children. -/
theorem schemaData_roundtrip (st : SchemaData) (node : Element) (u : Unit) (st' : SchemaData)
    (h : SchemaData.from_element st node = (Except.ok u, st')) :
    (st'.etree_element).get "schemaUrl" = node.get "schemaUrl"
  ∧ ((st'.etree_element).findall (st.ns ++ "SimpleData")).map (fun c => (c.get "name", c.text))
      = (node.findall (st.ns ++ "SimpleData")).map (fun c => (c.get "name", c.text)) := by
  have h' : sdAppendAll { st with _data := [], schema_url := node.get "schemaUrl" }
      (node.findall (st.ns ++ "SimpleData")) = (Except.ok u, st') := h
  obtain ⟨hns, hu, es, hdata, hmap⟩ := sdAppendAll_ok _ _ _ _ h'
  have hns2 : st'.ns = st.ns := hns
  have hu2 : st'.schema_url = node.get "schemaUrl" := hu
  have hdata2 : st'._data = es := by simpa using hdata
  constructor
  · exact hu2
  · simp only [SchemaData.etree_element, SchemaData.data, Element.new, Element.set,
      Element.setText, Element.findall, Element.children, Element.tag, Element.attrib,
      Element.text, setAttrList, List.nil_append, hdata2, hns2]
    rw [List.filter_eq_self.mpr]
    · rw [List.map_map]
      exact hmap
    · intro x hx
      obtain ⟨en, hen, hxe⟩ := List.mem_map.mp hx
      subst hxe
      simp [Element.tag]

/-- Claim C6, witness: a concrete SchemaData node with a schemaUrl attribute
and one SimpleData child round-trips through decode and encode. -/
theorem schemaData_roundtrip_witness :
    SchemaData.from_element (SchemaData.mk "" (Option.some "old") [Entry.mk "z" (PyVal.int 7)])
        (Element.mk "SchemaData" [("schemaUrl", Option.some "#s")]
          [Element.mk "SimpleData" [("name", Option.some "x")] [] (PyVal.str "9")] PyVal.none)
      = (Except.ok (), SchemaData.mk "" (Option.some "#s") [Entry.mk "x" (PyVal.str "9")])
  ∧ (((SchemaData.mk "" (Option.some "#s") [Entry.mk "x" (PyVal.str "9")]).etree_element).get "schemaUrl"
      = (Element.mk "SchemaData" [("schemaUrl", Option.some "#s")]
          [Element.mk "SimpleData" [("name", Option.some "x")] [] (PyVal.str "9")] PyVal.none).get "schemaUrl"
  ∧ (((SchemaData.mk "" (Option.some "#s") [Entry.mk "x" (PyVal.str "9")]).etree_element).findall
        ((SchemaData.mk "" (Option.some "old") [Entry.mk "z" (PyVal.int 7)]).ns ++ "SimpleData")).map
        (fun c => (c.get "name", c.text))
      = ((Element.mk "SchemaData" [("schemaUrl", Option.some "#s")]
          [Element.mk "SimpleData" [("name", Option.some "x")] [] (PyVal.str "9")] PyVal.none).findall
        ((SchemaData.mk "" (Option.some "old") [Entry.mk "z" (PyVal.int 7)]).ns ++ "SimpleData")).map
        (fun c => (c.get "name", c.text))) :=
  ⟨rfl, schemaData_roundtrip
    (SchemaData.mk "" (Option.some "old") [Entry.mk "z" (PyVal.int 7)])
    (Element.mk "SchemaData" [("schemaUrl", Option.some "#s")]
      [Element.mk "SimpleData" [("name", Option.some "x")] [] (PyVal.str "9")] PyVal.none)
    () (SchemaData.mk "" (Option.some "#s") [Entry.mk "x" (PyVal.str "9")]) rfl⟩

/-- Claim C7: the bulk data setter raises TypeError, leaving the store as it
was, for every top-level argument that is neither a tuple/list nor None: a
mapping at top level and any other non-sequence value; None resets the store
to empty. -/
theorem setData_top_level_shapes (st : SchemaData) (entries : List (String × PyVal)) (v : PyVal) :
    SchemaData.setData st (SDInput.dict entries)
      = (Except.error (Err.typeError "data must be of type tuple or list"), st)
  ∧ SchemaData.setData st (SDInput.prim v)
      = (Except.error (Err.typeError "data must be of type tuple or list"), st)
  ∧ SchemaData.setData st SDInput.pynone = (Except.ok (), { st with _data := [] })
  ∧ SchemaData.data { st with _data := ([] : List Entry) } = [] :=
  ⟨rfl, rfl, rfl, rfl⟩

/-- Claim C8: decoding a Schema node that has a SimpleField child without a
type attribute fails with the enumeration coercion's ValueError, which
propagates to the caller instead of the field being skipped. -/
theorem schema_decode_missing_type_fails (s : Schema) (element : Element)
    (h : (element.findall (s.ns ++ "SimpleField")).any (fun c => (c.get "type").isNone) = true) :
    Schema.from_element s element = Except.error (Err.valueError "is not a valid DataType") :=
  processFields_err _ _ h

/-- Claim C8, witness: a Schema node with one SimpleField child carrying only a
name attribute fails to decode. -/
theorem schema_decode_missing_type_fails_witness :
    ((Element.mk "Schema" []
        [Element.mk "SimpleField" [("name", Option.some "f")] [] PyVal.none]
        PyVal.none).findall ("" ++ "SimpleField")).any (fun c => (c.get "type").isNone) = true
  ∧ Schema.from_element (Schema.mk "" (Option.some "sid") Option.none Option.none [])
      (Element.mk "Schema" []
        [Element.mk "SimpleField" [("name", Option.some "f")] [] PyVal.none]
        PyVal.none)
      = Except.error (Err.valueError "is not a valid DataType") :=
  ⟨rfl, schema_decode_missing_type_fails _ _ rfl⟩

/-- Claim C9: every Data encodes to a node tagged Data whose name attribute is
always present and equals the stored name, or the empty string when the name
is absent; the first child is a value child whose text is the stored value
(None included), and a displayName child follows exactly when display_name is
truthy. -/
theorem data_encode_spec (d : Data) :
    (d.etree_element).tag = d.ns ++ "Data"
  ∧ (d.etree_element).hasAttr "name" = true
  ∧ (d.etree_element).get "name" = Option.some (d.name.getD "")
  ∧ (d.etree_element).children =
      (Element.new (d.ns ++ "value")).setText d.value ::
        (if (d.display_name).truthy then
          [(Element.new (d.ns ++ "displayName")).setText d.display_name]
         else []) := by
  have hor : strOr d.name "" = d.name.getD "" := by
    cases d.name with
    | none => rfl
    | some s =>
      simp only [strOr, Option.getD_some]
      split <;> simp_all
  by_cases ht : (d.display_name).truthy
  · refine ⟨?_, ?_, ?_, ?_⟩ <;>
      simp [Data.etree_element, Element.new, Element.set, Element.setText, Element.appendChild,
        Element.tag, Element.attrib, Element.children, Element.get, Element.hasAttr,
        setAttrList, List.lookup, ht, hor]
  · refine ⟨?_, ?_, ?_, ?_⟩ <;>
      simp [Data.etree_element, Element.new, Element.set, Element.setText, Element.appendChild,
        Element.tag, Element.attrib, Element.children, Element.get, Element.hasAttr,
        setAttrList, List.lookup, ht, hor]

/-- Claim C10, counterexample: decoding a SchemaData node whose schemaUrl
attribute is absent does not always complete without raising: a SimpleData
child without a name attribute makes the decode raise TypeError. -/
theorem schemaData_decode_missing_name_raises :
    (SchemaData.from_element (SchemaData.mk "" (Option.some "#s") [])
        (Element.mk "SchemaData" []
          [Element.mk "SimpleData" [] [] (PyVal.str "9")] PyVal.none)).1
      = Except.error (Err.typeError "name must be a nonempty string") := rfl

/-- Claim C10, amended: for every SchemaData and every node without a schemaUrl
attribute all of whose SimpleData children carry non-empty name attributes,
decode succeeds and leaves schema_url as None, although every constructed
SchemaData has a present schema_url; decode thus breaks the constructor's
invariant. -/
theorem schemaData_decode_breaks_url_invariant (st : SchemaData) (node : Element)
    (hurl : node.hasAttr "schemaUrl" = false)
    (hnames : (node.findall (st.ns ++ "SimpleData")).all
        (fun c => isNonemptyStr (optStrToPy (c.get "name"))) = true) :
    (∃ st', SchemaData.from_element st node = (Except.ok (), st')
        ∧ st'.schema_url = Option.none)
  ∧ (∀ (ns : String) (url : PyVal) (d : SDInput) (rec : SchemaData),
        SchemaData.init ns url d = Except.ok rec → rec.schema_url ≠ Option.none) := by
  constructor
  · obtain ⟨st', hok⟩ := sdAppendAll_total (node.findall (st.ns ++ "SimpleData"))
      { st with _data := [], schema_url := node.get "schemaUrl" } hnames
    refine ⟨st', hok, ?_⟩
    obtain ⟨hns, hu, _⟩ := sdAppendAll_ok _ _ _ _ hok
    have hu2 : st'.schema_url = node.get "schemaUrl" := hu
    rw [hu2, hasAttr_false_get node "schemaUrl" hurl]
  · intro ns url d rec h
    exact init_url_nonempty ns url d rec h

/-- Claim C10, witness: a concrete node without a schemaUrl attribute and one
well-named SimpleData child decodes without raising into a SchemaData whose
schema_url is None. -/
theorem schemaData_decode_breaks_url_invariant_witness :
    ((Element.mk "SchemaData" []
        [Element.mk "SimpleData" [("name", Option.some "x")] [] (PyVal.str "9")]
        PyVal.none).hasAttr "schemaUrl" = false)
  ∧ ((∃ st', SchemaData.from_element (SchemaData.mk "" (Option.some "#s") [])
        (Element.mk "SchemaData" []
          [Element.mk "SimpleData" [("name", Option.some "x")] [] (PyVal.str "9")]
          PyVal.none) = (Except.ok (), st')
        ∧ st'.schema_url = Option.none)
  ∧ (∀ (ns : String) (url : PyVal) (d : SDInput) (rec : SchemaData),
        SchemaData.init ns url d = Except.ok rec → rec.schema_url ≠ Option.none)) :=
  ⟨rfl, schemaData_decode_breaks_url_invariant
    (SchemaData.mk "" (Option.some "#s") [])
    (Element.mk "SchemaData" []
      [Element.mk "SimpleData" [("name", Option.some "x")] [] (PyVal.str "9")]
      PyVal.none) rfl rfl⟩

end Fastkml
